import Mathlib

/-!
Verification of the QuizMaker pipeline (src/converter.py) against its
natural-language specification.

All definitions are shallow embeddings of the Python source.  Strings are
modelled as `List Char`; Python truthiness, slicing, `re` operations and
integer division are made explicit.  Definitions whose name matches a
Python function embed that function; `spec...` definitions follow the
specification text and are compared with the source embeddings.
-/

namespace QuizMaker

/-! ## Basic Python string helpers -/

/-- Python `\s` character class (ASCII part, as used by `re` on this input). -/
def pyIsSpace (c : Char) : Bool :=
  c == ' ' || c == '\t' || c == '\n' || c == '\x0d' || c == '\x0b' || c == '\x0c'

/-- The character class `[0-9A-Za-z_-]` of `_yt_id`. -/
def isTokChar (c : Char) : Bool :=
  c.isAlphanum || c == '-' || c == '_'

/-- Python `\w` (ASCII): `[0-9A-Za-z_]`. -/
def isWordChar (c : Char) : Bool :=
  c.isAlphanum || c == '_'

/-! ## Identifier resolver: `_yt_id` (src/converter.py lines 372-383)

`_yt_id` applies `re.search` with the patterns
`(?:v=|\/)([0-9A-Za-z_-]{11})`, `youtu\.be\/(...)`, `embed\/(...)`,
`shorts\/(...)` in order and returns the first group of the first pattern
that matches, else `None`.  `re.search` finds the leftmost match. -/

/-- Match `([0-9A-Za-z_-]{11})` at the current position: the next 11
characters if there are 11 and all are in the class. -/
def grab11 (cs : List Char) : Option (List Char) :=
  let pre := cs.take 11
  if pre.length = 11 && pre.all isTokChar then some pre else none

/-- Leftmost match of `(?:v=|\/)([0-9A-Za-z_-]{11})`, returning group 1:
at each position first the `v=` alternative, then the `/` alternative is
tried; on failure the scan moves one position right. -/
def searchSlashV : List Char → Option (List Char)
  | [] => none
  | 'v' :: '=' :: rest2 =>
    match grab11 rest2 with
    | some t => some t
    | none => searchSlashV ('=' :: rest2)
  | '/' :: rest =>
    match grab11 rest with
    | some t => some t
    | none => searchSlashV rest
  | _ :: rest => searchSlashV rest

/-- Case-sensitive literal match; returns the remainder after the literal. -/
def litMatch : List Char → List Char → Option (List Char)
  | [], cs => some cs
  | _ :: _, [] => none
  | p :: ps, c :: cs => if p == c then litMatch ps cs else none

/-- Match `lit([0-9A-Za-z_-]{11})` at the current position. -/
def matchLitAt (lit cs : List Char) : Option (List Char) :=
  match litMatch lit cs with
  | some r => grab11 r
  | none => none

/-- Leftmost match of `lit([0-9A-Za-z_-]{11})`, returning group 1. -/
def searchLitTok (lit : List Char) : List Char → Option (List Char)
  | [] => matchLitAt lit []
  | c :: rest =>
    match matchLitAt lit (c :: rest) with
    | some t => some t
    | none => searchLitTok lit rest

/-- Embedding of `_yt_id`: the four patterns tried in order. -/
def yt_id (url : List Char) : Option (List Char) :=
  match searchSlashV url with
  | some t => some t
  | none =>
  match searchLitTok ("youtu.be/".toList) url with
  | some t => some t
  | none =>
  match searchLitTok ("embed/".toList) url with
  | some t => some t
  | none => searchLitTok ("shorts/".toList) url

/-- Whether the string contains 11 consecutive characters of the id
alphabet anywhere (the only way any of the four patterns can match). -/
def hasTok11 : List Char → Bool
  | [] => false
  | c :: cs => (grab11 (c :: cs)).isSome || hasTok11 cs

/-! ## Local heuristic generator: `_generate_basic_questions`
(src/converter.py lines 785-849) -/

/-- Terminal punctuation of the sentence-splitting pattern. -/
def isTermPunct (c : Char) : Bool := c == '.' || c == '!' || c == '?'

/-- Worker for `re.split(r'(?<=[.!?])\s+', text)`: `cur` is the current
segment, reversed; `skipping` is true while the whitespace run of a match
is being consumed (a fresh segment starts at its first non-whitespace
character, so `cur = []` whenever `skipping = true`).  A match starts at a
whitespace character whose preceding character (the head of `cur`) is
terminal punctuation, and greedily takes the whole whitespace run. -/
def splitSentGo (cur : List Char) (skipping : Bool) : List Char → List (List Char)
  | [] => [cur.reverse]
  | c :: cs =>
    if skipping && pyIsSpace c then splitSentGo cur true cs
    else if pyIsSpace c && (match cur with | p :: _ => isTermPunct p | [] => false) then
      cur.reverse :: splitSentGo [] true cs
    else splitSentGo (c :: cur) false cs

/-- `re.split(r'(?<=[.!?])\s+', text)` (line 794). -/
def pySplitSentences (text : List Char) : List (List Char) := splitSentGo [] false text

/-- Python `str.strip()`. -/
def pyStrip (s : List Char) : List Char :=
  ((s.dropWhile pyIsSpace).reverse.dropWhile pyIsSpace).reverse

/-- Lines 790-795: truncate to the first 20000 characters, split into
sentences, keep the stripped segments of stripped length over 20. -/
def qualifyingSentences (text : List Char) : List (List Char) :=
  ((pySplitSentences (text.take 20000)).map pyStrip).filter (fun s => 20 < s.length)

/-- Line 801-802: `n = min(n, len(sentences) // 2); n = max(3, n)`. -/
def effectiveN (cnt n : Nat) : Nat := max 3 (min n (cnt / 2))

/-- Line 805: `step = max(1, len(sentences) // (n + 1))`. -/
def strideStep (cnt effN : Nat) : Nat := max 1 (cnt / (effN + 1))

/-- Python `range(start, stop, step)` for a positive step: the
arithmetic progression from `start`, of length `ceil((stop-start)/step)`. -/
def pyRange (start stop step : Nat) : List Nat :=
  List.range' start ((stop - start + step - 1) / step) step

/-- Line 808: the picked sentence indices
`[i for i in range(step, len(sentences), step)][:n]`. -/
def keyIndices (cnt n : Nat) : List Nat :=
  (pyRange (strideStep cnt (effectiveN cnt n)) cnt (strideStep cnt (effectiveN cnt n))).take
    (effectiveN cnt n)

/-- Worker for `re.sub(r'\s+', ' ', s)`: `skipping` is true while inside
a whitespace run whose single replacement space was already emitted. -/
def collapseGo (skipping : Bool) : List Char → List Char
  | [] => []
  | c :: cs =>
    if pyIsSpace c then
      if skipping then collapseGo true cs else ' ' :: collapseGo true cs
    else c :: collapseGo false cs

/-- `re.sub(r'\s+', ' ', s)`: collapse each maximal whitespace run to one
space. -/
def collapseWs (s : List Char) : List Char := collapseGo false s

/-- Case-insensitive literal match; returns the remainder. -/
def matchCI : List Char → List Char → Option (List Char)
  | [], s => some s
  | _ :: _, [] => none
  | p :: ps, c :: cs => if p.toLower == c.toLower then matchCI ps cs else none

/-- One alternative of `re.sub(r'^(I|We|They|He|She|It)\s+(\w+)', r'Who \2', q,
flags=re.IGNORECASE)`: pronoun, then at least one whitespace, then a maximal
nonempty word; the matched part is replaced by `Who ` followed by the word. -/
def pronounSub1 (pron q : List Char) : Option (List Char) :=
  match matchCI pron q with
  | none => none
  | some r =>
    if (r.takeWhile pyIsSpace).isEmpty then none
    else
      let afterSp := r.dropWhile pyIsSpace
      let w := afterSp.takeWhile isWordChar
      if w.isEmpty then none
      else some ("Who ".toList ++ w ++ afterSp.dropWhile isWordChar)

/-- Line 821: the anchored pronoun substitution, alternatives in pattern
order; if no alternative matches the string is unchanged. -/
def subPronoun (q : List Char) : List Char :=
  match ["I", "We", "They", "He", "She", "It"].findSome?
      (fun p => pronounSub1 p.toList q) with
  | some res => res
  | none => q

/-- Line 824: `re.match(r'^(What|Who|How|Why|When|Where)', q, re.IGNORECASE)`. -/
def startsInterrog (q : List Char) : Bool :=
  ["What", "Who", "How", "Why", "When", "Where"].any
    (fun w => (matchCI w.toList q).isSome)

/-- `\bverb\b` matches at the start of `s` (left boundary is handled by the
caller): the verb, case-insensitively, followed by end or a non-word char. -/
def wordAt (verb s : List Char) : Bool :=
  match matchCI verb s with
  | some [] => true
  | some (c :: _) => !(isWordChar c)
  | none => false

/-- Scan for `\bverb\b`; `atB` records whether the current position is at a
word boundary (start of string or preceded by a non-word character). -/
def searchWordAux (verb : List Char) : List Char → Bool → Bool
  | [], _ => false
  | c :: cs, atB => (atB && wordAt verb (c :: cs)) || searchWordAux verb cs (!(isWordChar c))

/-- Line 826-827: `re.search(rf'\b{verb}\b', q, re.IGNORECASE)`. -/
def hasWordCI (verb q : List Char) : Bool := searchWordAux verb q true

/-- Python `str.lower()` (ASCII range suffices here). -/
def pyLower (s : List Char) : List Char := s.map Char.toLower

/-- The linking verbs of line 825, in order. -/
def linkingVerbs : List (List Char) :=
  ["is", "are", "was", "were", "has", "have", "had"].map String.toList

/-- Lines 815-836: build the question text from the picked sentence. -/
def mkQuestion (orig : List Char) : List Char :=
  let sentence := pyStrip (collapseWs orig)
  let q1 := subPronoun sentence
  let q2 :=
    if startsInterrog q1 then q1
    else if linkingVerbs.any (fun v => hasWordCI v q1) then
      "What ".toList ++ pyLower q1 ++ ['?']
    else
      "What can you say about: ".toList ++ q1 ++ ['?']
  if q2.getLast? == some '?' then q2 else q2 ++ ['?']

/-- Python `sep.join(parts)`. -/
def pyJoin (sep : List Char) : List (List Char) → List Char
  | [] => []
  | [s] => s
  | s :: rest => s ++ sep ++ pyJoin sep rest

/-- Lines 839-841: `' '.join(sentences[max(0, i-1):min(len(sentences), i+2)])`. -/
def mkAnswer (sents : List (List Char)) (i : Nat) : List Char :=
  pyJoin [' '] ((sents.drop (i - 1)).take (min sents.length (i + 2) - (i - 1)))

/-- One question/answer pair of the generated document. -/
structure QAItem where
  question : List Char
  answer : List Char
deriving DecidableEq, Repr

/-- The loop of lines 812-843, as data: one item per picked index.  (The
`except` arm of the loop body is unreachable: the loop body is pure string
processing and raises no exception.) -/
def genItems (sents : List (List Char)) (n : Nat) : List QAItem :=
  (keyIndices sents.length n).map
    (fun i => ⟨mkQuestion (sents.getD i []), mkAnswer sents i⟩)

/-- Line 843: `f"## Question {i}: {question}\n**Answer:** {answer}\n"`. -/
def renderBlock (k : Nat) (it : QAItem) : List Char :=
  "## Question ".toList ++ (Nat.repr k).toList ++ ": ".toList ++ it.question
    ++ "\n**Answer:** ".toList ++ it.answer ++ ['\n']

/-- Line 849: `"\n".join(questions)`, with `enumerate(..., 1)` numbering. -/
def renderItems (items : List QAItem) : List Char :=
  pyJoin ['\n'] ((List.enumFrom 1 items).map (fun p => renderBlock p.1 p.2))

/-- The literal returned at line 798 when no qualifying sentence remains. -/
def SENTINEL : List Char :=
  "Failed to extract meaningful content from transcript.".toList

/-- Embedding of `_generate_basic_questions(transcript_text, n)`: the
returned string. -/
def generateBasic (transcript : List Char) (n : Nat) : List Char :=
  let sentences := qualifyingSentences transcript
  if sentences.isEmpty then SENTINEL
  else renderItems (genItems sentences n)

/-! ## Remote job client: `_upload_and_wait` (src/converter.py lines 577-615)

The poll loop is modelled in discrete iterations: each loop pass queries
the job state once and then sleeps `interval` seconds, so at the start of
iteration `k` the elapsed time is `k * interval` and the loop guard
`time.time() - start < timeout` reads `k * interval < timeout`.  The four
exit paths of the source (return the active file, return after logging
FAILED, return after logging Cancelled, fall out of the loop and log
timeout) are the four constructors of `PollOutcome`. -/

/-- The remote job states distinguished by the poll loop (`ACTIVE`,
`FAILED`, anything else). -/
inductive JobState
  | active
  | failed
  | processing
deriving DecidableEq, Repr

/-- The four distinct exit paths of the poll loop. -/
inductive PollOutcome
  | ready
  | failedState
  | cancelled
  | timedOut
deriving DecidableEq, Repr

/-- Environment of one poll loop run: the job state returned by the k-th
`get_file` query, the cancel flag as observed at the k-th iteration, and
the caller-supplied timeout and interval (seconds). -/
structure PollEnv where
  state : Nat → JobState
  cancelAt : Nat → Bool
  timeout : Nat
  interval : Nat

/-- The loop body, iteration `k` onward; `fuel` bounds the recursion and
is irrelevant whenever `interval > 0` and the fuel covers the window (see
`awaitCompletion`).  Returns the outcome together with the exit
iteration.  Check order follows the source: loop guard, cancel flag,
ACTIVE, FAILED, sleep and repeat. -/
def pollFrom (env : PollEnv) : Nat → Nat → PollOutcome × Nat
  | 0, k => (.timedOut, k)
  | fuel + 1, k =>
    if k * env.interval < env.timeout then
      if env.cancelAt k then (.cancelled, k)
      else
        match env.state k with
        | .active => (.ready, k)
        | .failed => (.failedState, k)
        | .processing => pollFrom env fuel (k + 1)
    else (.timedOut, k)

/-- Embedding of the poll loop of `_upload_and_wait` (after a successful
upload).  With `interval ≥ 1` the loop guard fails at `k = timeout` at the
latest, so `timeout + 1` iterations of fuel are never exhausted. -/
def awaitCompletion (env : PollEnv) : PollOutcome × Nat :=
  pollFrom env (env.timeout + 1) 0

/-! ## Pipeline orchestrator: `_pipeline` (src/converter.py lines 852-937)

External effects (yt-dlp downloads, file reads, Gemini calls) are supplied
by a `PipelineEnv`; the control flow, Python truthiness checks, and the
cancel-flag checks are embedded faithfully.  The cancel flag is observed
at the `if vidfile and not self.cancel_flag` check (line 892) and at the
final checks (lines 921-932); `cancelOutside` is its value at those
non-poll observation points, and during the poll loop the flag at
iteration `k` is `cancelAt k` (the flag is also considered set after the
poll if any poll iteration observed it). -/

/-- Kinds of files the run leaves in the output directory. -/
inductive ArtifactKind
  | transcript
  | video
  | audio
  | quizFile
deriving DecidableEq, Repr

/-- How a run ends: save succeeded and progress reported Complete; a
`RuntimeError(stage)` was raised and reported as an error; or the cancel
flag suppressed both the save and the error report. -/
inductive RunOutcome
  | done
  | failedStage (stage : String)
  | cancelled
deriving DecidableEq, Repr

structure RunResult where
  outcome : RunOutcome
  savedQuiz : Option (List Char)
  disk : List ArtifactKind
deriving DecidableEq, Repr

/-- External-world results for one pipeline run. -/
structure PipelineEnv where
  /-- `_download_transcript`: content of the transcript file, if acquired. -/
  transcriptText : Option (List Char)
  /-- `_download_video` succeeds (when video download is enabled). -/
  videoFile : Bool
  /-- FFmpeg present, so `_maybe_audio_only` produces an audio file. -/
  ffmpegAvailable : Bool
  /-- `genai.upload_file` succeeds. -/
  uploadOk : Bool
  /-- Job state per poll iteration. -/
  pollState : Nat → JobState
  /-- Cancel flag per poll iteration. -/
  cancelAt : Nat → Bool
  /-- Cancel flag at the non-poll observation points. -/
  cancelOutside : Bool
  /-- `model.generate_content` in `_make_quiz_from_transcript`:
  `some text` on success, `none` when the call raises. -/
  remoteTranscriptGen : Option (List Char)
  /-- `model.generate_content` in `_make_quiz_from_media`. -/
  remoteMediaGen : Option (List Char)

/-- User configuration of one run. -/
structure Config where
  offlineMode : Bool
  transcriptOnly : Bool
  downloadVideo : Bool
  numQ : Nat

/-- Python truthiness of the `quiz` variable: `None` and the empty string
are falsy. -/
def pyTruthy : Option (List Char) → Bool
  | none => false
  | some s => !s.isEmpty

/-- `_make_quiz_from_transcript(path, n)` with the transcript file content
`text` (callers have checked the path is set, so the early `return None`
is not taken; the outer `except` is unreachable because the fallback body
raises no exception).  On remote success the remote text is returned; on
remote failure the local generator runs on the same full transcript. -/
def makeQuizFromTranscript (remoteGen : Option (List Char)) (text : List Char)
    (n : Nat) : Option (List Char) :=
  match remoteGen with
  | some out => some out
  | none => some (generateBasic text n)

/-- `_make_quiz_from_media(gfile, path, n)`: the transcript is read and cut
to 25000 characters; on remote failure the local generator runs on that
excerpt if it is truthy, else `None` is returned. -/
def makeQuizFromMedia (remoteGen : Option (List Char))
    (transcriptText : Option (List Char)) (n : Nat) : Option (List Char) :=
  let ttext := match transcriptText with
    | some t => t.take 25000
    | none => []
  match remoteGen with
  | some out => some out
  | none => if ttext.isEmpty then none else some (generateBasic ttext n)

/-- The poll environment `_upload_and_wait(upfile)` runs with: the
defaults `timeout=600`, `interval=5`. -/
def pollEnvOf (e : PipelineEnv) : PollEnv :=
  ⟨e.pollState, e.cancelAt, 600, 5⟩

/-- The cancel flag after the poll loop exited at iteration `k`: set iff
some iteration up to `k` observed it (or it was set outside the loop). -/
def cancelSeen (e : PipelineEnv) (k : Nat) : Bool :=
  e.cancelOutside || (List.range (k + 1)).any e.cancelAt

/-- Result of the `try` block of `_pipeline`: either it completed with the
`quiz` variable and current cancel flag, or a `RuntimeError(stage)` was
raised. -/
inductive StageRes
  | ok (quiz : Option (List Char)) (flag : Bool) (disk : List ArtifactKind)
  | raised (stage : String) (flag : Bool) (disk : List ArtifactKind)
deriving DecidableEq, Repr

/-- The `try` block of `_pipeline` (lines 858-919): transcript download,
then the offline / transcript-only / full-mode branches.  The
`offline_mode` re-checks inside the full-mode branch (lines 897, 912) are
dead there because the branch is only reached with `offlineMode = false`. -/
def pipelineStages (c : Config) (e : PipelineEnv) : StageRes :=
  let disk0 : List ArtifactKind :=
    if e.transcriptText.isSome then [ArtifactKind.transcript] else []
  if c.offlineMode then
    match e.transcriptText with
    | some t => .ok (some (generateBasic t c.numQ)) e.cancelOutside disk0
    | none => .raised "transcript" e.cancelOutside disk0
  else if c.transcriptOnly then
    match e.transcriptText with
    | some t => .ok (makeQuizFromTranscript e.remoteTranscriptGen t c.numQ)
        e.cancelOutside disk0
    | none => .raised "transcript" e.cancelOutside disk0
  else
    let vidOk := c.downloadVideo && e.videoFile
    let disk1 := if vidOk then disk0 ++ [ArtifactKind.video] else disk0
    if !vidOk && e.transcriptText.isNone then .raised "download" e.cancelOutside disk1
    else if vidOk && !e.cancelOutside then
      let disk2 := if e.ffmpegAvailable then disk1 ++ [ArtifactKind.audio] else disk1
      if e.uploadOk then
        match awaitCompletion (pollEnvOf e) with
        | (.ready, k) =>
            .ok (makeQuizFromMedia e.remoteMediaGen e.transcriptText c.numQ)
              (cancelSeen e k) disk2
        | (_, k) => .ok none (cancelSeen e k) disk2
      else .ok none e.cancelOutside disk2
    else if e.transcriptText.isSome && !e.cancelOutside then
      match e.transcriptText with
      | some t => .ok (makeQuizFromTranscript e.remoteTranscriptGen t c.numQ)
          e.cancelOutside disk1
      | none => .ok none e.cancelOutside disk1
    else .ok none e.cancelOutside disk1

/-- Lines 921-937: promote an empty/absent quiz to `RuntimeError("quiz")`
unless cancelled; save the quiz unless cancelled; a raise is reported as a
stage failure unless cancelled. -/
def finishRun : StageRes → RunResult
  | .raised s flag disk =>
      { outcome := if flag then .cancelled else .failedStage s
        savedQuiz := none
        disk := disk }
  | .ok quiz flag disk =>
      if !pyTruthy quiz && !flag then
        { outcome := .failedStage "quiz", savedQuiz := none, disk := disk }
      else if pyTruthy quiz && !flag then
        { outcome := .done, savedQuiz := quiz, disk := disk ++ [ArtifactKind.quizFile] }
      else
        { outcome := .cancelled, savedQuiz := none, disk := disk }

/-- Embedding of one `_pipeline` run. -/
def pipeline (c : Config) (e : PipelineEnv) : RunResult :=
  finishRun (pipelineStages c e)

/-! ## Auxiliary decision procedures used by the resolver proofs -/

/-- The first (at most) 11 characters contain one outside the id
alphabet; then a `{11}` window starting here fails no matter what
follows. -/
def hasBad11 (l : List Char) : Bool := (l.take 11).any (fun c => !(isTokChar c))

/-- Scan of a prefix `pre` certifying that `searchSlashV` finds no match
inside `pre ++ rest` before reaching `rest`, for an arbitrary `rest`:
every candidate position (a `/`, or a `v` followed by `=`) is ruled out
by a bad character inside `pre` itself; a trailing `v` is rejected
conservatively. -/
def cleanStrict : List Char → Bool
  | [] => true
  | 'v' :: '=' :: cs2 => hasBad11 cs2 && cleanStrict ('=' :: cs2)
  | 'v' :: [] => false
  | '/' :: cs => hasBad11 cs && cleanStrict cs
  | _ :: cs => cleanStrict cs

/-- Like `cleanStrict`, specialised to a `rest` that starts with `/`: a
candidate window that runs past the end of `pre` then contains that `/`
and fails, so short tails are also fine. -/
def cleanB4Slash : List Char → Bool
  | [] => true
  | 'v' :: '=' :: cs2 =>
    (decide (cs2.length < 11) || hasBad11 cs2) && cleanB4Slash ('=' :: cs2)
  | '/' :: cs => (decide (cs.length < 11) || hasBad11 cs) && cleanB4Slash cs
  | _ :: cs => cleanB4Slash cs

/-! ## Specification-side definitions (from the wording of the spec) -/

/-- Following the specification wording for the answer (spec 4.2 step 7):
the concatenation of the sentence immediately before the pick, the picked
sentence, and the sentence immediately after, clamped at the segment
boundaries. -/
def specAnswer (sents : List (List Char)) (i : Nat) : List Char :=
  pyJoin [' ']
    (([i - 1, i, i + 1].filter (fun j => decide (j < sents.length))).map
      (fun j => sents.getD j []))

/-- No adjacent pair (terminal punctuation, whitespace) occurs inside the
string, i.e. the sentence splitter has no match inside it. -/
def noSplitIn (l : List Char) : Bool :=
  (l.zip l.tail).all (fun pc => !(isTermPunct pc.1 && pyIsSpace pc.2))

/-- Concrete environment for the cancellation scenario: transcript and
video acquired, upload succeeded, job stays processing, cancel flag set
from poll iteration 1 on. -/
def envCancelW : PipelineEnv :=
  ⟨some ("First qualifying sentence right here ok. Second qualifying sentence also here now!".toList),
    true, true, true, fun _ => .processing, fun k => decide (1 ≤ k), false, none, none⟩

/-- Concrete poll environment: the job state becomes `FAILED` at the
third query (iteration 2), long before the 600 second timeout. -/
def envPollW : PollEnv :=
  ⟨fun k => if k = 2 then .failed else .processing, fun _ => false, 600, 5⟩

/-- Concrete transcript text with five qualifying sentences. -/
def textFiveW : List Char :=
  ("The quick brown fox jumps over dogs today. She said hello to everyone there. "
    ++ "I think verification is quite interesting. They have many books in the library. "
    ++ "Results were better than expected overall.").toList

/-!
# Theorems

One theorem per claim C1-C10, with helper lemmas; counterexamples and
witnesses are closed evaluations of the embedded definitions.
-/

/-- C10: the resolver accepts strictly more than the four documented
reference forms.  On a URL that is not a standard, short-link, embed or
shorts reference (none of the dedicated literal patterns match it, and it
has no `v=`), the generic `(?:v=|\/)` pattern still fires on the path
slash and the resolver returns the following 11 characters instead of
failing with `InvalidReference` (`None`). -/
theorem resolver_accepts_undocumented_form :
    yt_id ("https://example.com/abcdefghijk".toList) = some ("abcdefghijk".toList) ∧
    searchLitTok ("youtu.be/".toList) ("https://example.com/abcdefghijk".toList) = none ∧
    searchLitTok ("embed/".toList) ("https://example.com/abcdefghijk".toList) = none ∧
    searchLitTok ("shorts/".toList) ("https://example.com/abcdefghijk".toList) = none := by
  decide

/-- C1 (code bug evaluation): with `offlineMode = true` and a transcript
whose text has zero qualifying sentences, `_generate_basic_questions`
returns the sentinel failure message instead of raising; the pipeline
treats that non-empty string as a valid quiz, saves it, and finishes
`Done` — silently producing an output with zero question items, contrary
to the specification (which promotes this to `InsufficientContent`). -/
theorem run_saves_sentinel_on_insufficient_content :
    qualifyingSentences ("Hi.".toList) = [] ∧
    generateBasic ("Hi.".toList) 5 = SENTINEL ∧
    pipeline ⟨true, false, true, 5⟩
        ⟨some ("Hi.".toList), false, false, false, fun _ => .processing,
          fun _ => false, false, none, none⟩ =
      { outcome := .done
        savedQuiz := some SENTINEL
        disk := [ArtifactKind.transcript, ArtifactKind.quizFile] } ∧
    ¬ List.IsInfix ("## Question".toList) SENTINEL := by
  refine ⟨by decide, by decide, by decide, by decide⟩

/-- C2 (counterexample): `transcriptOnly = true`, transcript acquisition
succeeds, the remote generation call fails — but the transcript has
exactly one qualifying sentence, so the local fallback returns the empty
string (the stride `range(1, 1, 1)` is empty), the empty quiz trips the
`RuntimeError("quiz")` check, and the run fails instead of reaching
`Done`. -/
theorem transcript_only_fallback_can_fail_run :
    qualifyingSentences ("This single sentence is long enough to qualify.".toList)
        = ["This single sentence is long enough to qualify.".toList] ∧
    makeQuizFromTranscript none
        ("This single sentence is long enough to qualify.".toList) 5
      = some (generateBasic ("This single sentence is long enough to qualify.".toList) 5) ∧
    generateBasic ("This single sentence is long enough to qualify.".toList) 5 = [] ∧
    pipeline ⟨false, true, false, 5⟩
        ⟨some ("This single sentence is long enough to qualify.".toList), false, false,
          false, fun _ => .processing, fun _ => false, false, none, none⟩ =
      { outcome := .failedStage "quiz"
        savedQuiz := none
        disk := [ArtifactKind.transcript] } := by
  refine ⟨by decide, by decide, by decide, by decide⟩

/-- C2 (amended): in transcript-only mode with a transcript and a failing
remote generation call, the run always falls back to the local heuristic
generator on the same transcript text; it reaches `Done` and saves that
local result whenever it is non-empty, and fails at the quiz stage when
the local result is empty (which happens exactly when the transcript has
one qualifying sentence). -/
theorem transcript_only_remote_failure_falls_back
    (t : List Char) (c : Config) (e : PipelineEnv)
    (hoff : c.offlineMode = false) (hto : c.transcriptOnly = true)
    (ht : e.transcriptText = some t) (hrg : e.remoteTranscriptGen = none)
    (hcf : e.cancelOutside = false) :
    pipeline c e =
      if (generateBasic t c.numQ).isEmpty then
        { outcome := .failedStage "quiz", savedQuiz := none
          disk := [ArtifactKind.transcript] }
      else
        { outcome := .done, savedQuiz := some (generateBasic t c.numQ)
          disk := [ArtifactKind.transcript, ArtifactKind.quizFile] } := by
  unfold pipeline pipelineStages
  rw [hoff, hto, ht]
  simp only [Bool.false_eq_true, if_false, if_true, Option.isSome_some]
  unfold makeQuizFromTranscript
  rw [hrg]
  unfold finishRun pyTruthy
  rw [hcf]
  by_cases hq : (generateBasic t c.numQ).isEmpty
  · simp [hq]
  · simp [hq]

/-- C2 witness: a transcript with two qualifying sentences; the run
reaches `Done` with the locally generated quiz. -/
theorem transcript_only_remote_failure_falls_back_witness :
    pipeline ⟨false, true, false, 5⟩
        ⟨some ("First qualifying sentence right here ok. Second qualifying sentence also here now!".toList),
          false, false, false, fun _ => .processing, fun _ => false, false, none, none⟩ =
      if (generateBasic
            ("First qualifying sentence right here ok. Second qualifying sentence also here now!".toList)
            5).isEmpty then
        { outcome := .failedStage "quiz", savedQuiz := none
          disk := [ArtifactKind.transcript] }
      else
        { outcome := .done
          savedQuiz := some (generateBasic
            ("First qualifying sentence right here ok. Second qualifying sentence also here now!".toList) 5)
          disk := [ArtifactKind.transcript, ArtifactKind.quizFile] } :=
  transcript_only_remote_failure_falls_back _ _ _ rfl rfl rfl rfl rfl

/-- C6: in full mode (neither offline nor transcript-only) with video
download enabled and video acquisition failing: if the transcript also
failed, the run raises at the download stage (`NoAcquisitionSucceeded`)
and writes no output; if a transcript exists, the run behaves exactly as
the transcript-only configuration on the same environment. -/
theorem full_mode_acquisition_fallback (c : Config) (e : PipelineEnv)
    (hoff : c.offlineMode = false) (hto : c.transcriptOnly = false)
    (hdv : c.downloadVideo = true) (hvf : e.videoFile = false)
    (hcf : e.cancelOutside = false) :
    (e.transcriptText = none →
      pipeline c e =
        { outcome := .failedStage "download", savedQuiz := none, disk := [] }) ∧
    (e.transcriptText.isSome = true →
      pipeline c e = pipeline { c with transcriptOnly := true } e) := by
  constructor
  · intro htn
    unfold pipeline pipelineStages
    rw [hoff, hto, hdv, hvf, htn, hcf]
    simp [finishRun]
  · intro hts
    obtain ⟨t, ht⟩ := Option.isSome_iff_exists.mp hts
    unfold pipeline pipelineStages
    rw [hoff, hto, hdv, hvf, ht, hcf]
    simp

/-- C6 witness at concrete inputs: both conjuncts of the theorem applied
to an environment with both acquisitions failed, resp. a transcript-only
fallback environment. -/
theorem full_mode_acquisition_fallback_witness :
    pipeline ⟨false, false, true, 5⟩
        ⟨none, false, false, false, fun _ => .processing, fun _ => false, false, none, none⟩ =
      { outcome := .failedStage "download", savedQuiz := none, disk := [] } ∧
    pipeline ⟨false, false, true, 5⟩
        ⟨some ("First qualifying sentence right here ok. Second qualifying sentence also here now!".toList),
          false, false, false, fun _ => .processing, fun _ => false, false, none, none⟩ =
      pipeline ⟨false, true, true, 5⟩
        ⟨some ("First qualifying sentence right here ok. Second qualifying sentence also here now!".toList),
          false, false, false, fun _ => .processing, fun _ => false, false, none, none⟩ :=
  ⟨(full_mode_acquisition_fallback _ _ rfl rfl rfl rfl rfl).1 rfl,
   (full_mode_acquisition_fallback _ _ rfl rfl rfl rfl rfl).2 rfl⟩

/-- Only the cancel-flag branch of the poll loop exits with `cancelled`,
so the flag was indeed observed set at the exit iteration. -/
theorem pollFrom_cancelled_flag (env : PollEnv) :
    ∀ (fuel k0 k : Nat), pollFrom env fuel k0 = (.cancelled, k) →
      env.cancelAt k = true := by
  intro fuel
  induction fuel with
  | zero =>
    intro k0 k h
    exact absurd h (by simp [pollFrom])
  | succ fuel ih =>
    intro k0 k h
    unfold pollFrom at h
    split at h
    · split at h
      · simp only [Prod.mk.injEq] at h
        rw [← h.2]
        assumption
      · split at h
        · exact absurd h (by simp)
        · exact absurd h (by simp)
        · exact ih _ _ h
    · exact absurd h (by simp)

/-- C7: whenever the poll loop observes cancellation (full mode, video
acquired, upload succeeded), the run ends `Cancelled` — not as a stage
failure — no quiz file is written, and the previously acquired transcript
and video artifacts remain on disk. -/
theorem cancellation_during_poll (c : Config) (e : PipelineEnv) (k : Nat)
    (hoff : c.offlineMode = false) (hto : c.transcriptOnly = false)
    (hdv : c.downloadVideo = true) (hvf : e.videoFile = true)
    (hcf : e.cancelOutside = false) (hup : e.uploadOk = true)
    (hpoll : awaitCompletion (pollEnvOf e) = (.cancelled, k)) :
    (pipeline c e).outcome = .cancelled ∧
    (pipeline c e).savedQuiz = none ∧
    (e.transcriptText.isSome = true →
      ArtifactKind.transcript ∈ (pipeline c e).disk) ∧
    ArtifactKind.video ∈ (pipeline c e).disk ∧
    ArtifactKind.quizFile ∉ (pipeline c e).disk := by
  have hca : e.cancelAt k = true :=
    pollFrom_cancelled_flag (pollEnvOf e) _ _ _ hpoll
  have hseen : cancelSeen e k = true := by
    unfold cancelSeen
    rw [hcf]
    simp only [Bool.false_or]
    exact List.any_eq_true.mpr ⟨k, List.mem_range.mpr (Nat.lt_succ_self k), hca⟩
  have hres : pipeline c e =
      { outcome := .cancelled, savedQuiz := none
        disk :=
          if e.ffmpegAvailable then
            ((if e.transcriptText.isSome then [ArtifactKind.transcript] else [])
              ++ [ArtifactKind.video]) ++ [ArtifactKind.audio]
          else
            (if e.transcriptText.isSome then [ArtifactKind.transcript] else [])
              ++ [ArtifactKind.video] } := by
    unfold pipeline pipelineStages
    rw [hoff, hto, hdv, hvf, hcf, hup, hpoll]
    simp [finishRun, hseen, pyTruthy]
  rw [hres]
  refine ⟨rfl, rfl, ?_, ?_, ?_⟩
  · intro hts
    by_cases hf : e.ffmpegAvailable <;> simp [hf, hts]
  · by_cases hf : e.ffmpegAvailable <;> simp [hf]
  · by_cases hf : e.ffmpegAvailable <;>
      by_cases hts : e.transcriptText.isSome <;> simp [hf, hts]

/-- One quiet iteration of the poll loop: guard holds, no cancellation,
job still processing, so the loop sleeps and advances. -/
theorem pollFrom_advance (env : PollEnv) (fuel k : Nat)
    (hg : k * env.interval < env.timeout) (hc : env.cancelAt k = false)
    (hs : env.state k = .processing) :
    pollFrom env (fuel + 1) k = pollFrom env fuel (k + 1) := by
  conv_lhs => rw [pollFrom]
  rw [if_pos hg, hc, hs]
  simp

/-- Running the loop through `K` quiet iterations reaches iteration `K`
with `K` fewer units of fuel. -/
theorem pollFrom_skip (env : PollEnv) :
    ∀ (K fuel : Nat),
      (∀ j < K, env.cancelAt j = false ∧ env.state j = .processing) →
      K * env.interval < env.timeout →
      pollFrom env (K + fuel) 0 = pollFrom env fuel K := by
  intro K
  induction K with
  | zero => intro fuel _ _; rw [Nat.zero_add]
  | succ K ih =>
    intro fuel hq hK
    have hK2 : K * env.interval < env.timeout :=
      lt_of_le_of_lt (Nat.mul_le_mul_right _ (Nat.le_succ K)) hK
    have h1 : pollFrom env (K + (fuel + 1)) 0 = pollFrom env (fuel + 1) K :=
      ih (fuel + 1) (fun j hj => hq j (Nat.lt_succ_of_lt hj)) hK2
    have h2 : pollFrom env (fuel + 1) K = pollFrom env fuel (K + 1) :=
      pollFrom_advance env fuel K hK2 (hq K (Nat.lt_succ_self K)).1
        (hq K (Nat.lt_succ_self K)).2
    rw [show K + 1 + fuel = K + (fuel + 1) from by omega]
    exact h1.trans h2

/-- If every iteration inside the time window is quiet, the loop can only
exit through the timeout path. -/
theorem pollFrom_timeout (env : PollEnv)
    (hq : ∀ j, j * env.interval < env.timeout →
        env.cancelAt j = false ∧ env.state j = .processing) :
    ∀ (fuel k : Nat), (pollFrom env fuel k).1 = .timedOut := by
  intro fuel
  induction fuel with
  | zero => intro k; rfl
  | succ fuel ih =>
    intro k
    unfold pollFrom
    by_cases hg : k * env.interval < env.timeout
    · rw [if_pos hg, (hq k hg).1, (hq k hg).2]
      exact ih (k + 1)
    · rw [if_neg hg]

/-- C5: the poll loop queries the state once per iteration (elapsed time
`k * interval` at iteration `k`, against the caller-supplied `timeout`)
and, given `K` quiet iterations before time `K * interval < timeout`, it
terminates at iteration `K` with the matching outcome: `cancelled` as
soon as the flag is observed, `ready` on `ACTIVE`, `failedState` on
`FAILED` — in the failed case immediately at iteration `K`, not after the
timeout elapses — and `timedOut` (only) when no event occurs inside the
window; the `failedState`, `cancelled` and `timedOut` outcomes are
pairwise distinct. -/
theorem poll_loop_outcomes (env : PollEnv) (hI : 0 < env.interval) (K : Nat)
    (hquiet : ∀ j < K, env.cancelAt j = false ∧ env.state j = .processing)
    (hK : K * env.interval < env.timeout) :
    (env.cancelAt K = true → awaitCompletion env = (.cancelled, K)) ∧
    (env.cancelAt K = false → env.state K = .active →
      awaitCompletion env = (.ready, K)) ∧
    (env.cancelAt K = false → env.state K = .failed →
      awaitCompletion env = (.failedState, K)) ∧
    ((∀ j, j * env.interval < env.timeout →
        env.cancelAt j = false ∧ env.state j = .processing) →
      (awaitCompletion env).1 = .timedOut) ∧
    PollOutcome.failedState ≠ PollOutcome.cancelled ∧
    PollOutcome.failedState ≠ PollOutcome.timedOut ∧
    PollOutcome.cancelled ≠ PollOutcome.timedOut := by
  have hKle : K ≤ env.timeout := by
    have h1 : K ≤ K * env.interval := Nat.le_mul_of_pos_right K hI
    omega
  have hfu : awaitCompletion env = pollFrom env (env.timeout - K + 1) K := by
    unfold awaitCompletion
    rw [show env.timeout + 1 = K + (env.timeout - K + 1) from by omega]
    exact pollFrom_skip env K _ hquiet hK
  refine ⟨?_, ?_, ?_, ?_, by decide, by decide, by decide⟩
  · intro hc
    rw [hfu]
    conv_lhs => rw [pollFrom]
    rw [if_pos hK, hc]
    rfl
  · intro hc hs
    rw [hfu]
    conv_lhs => rw [pollFrom]
    rw [if_pos hK, hc, hs]
    simp
  · intro hc hs
    rw [hfu]
    conv_lhs => rw [pollFrom]
    rw [if_pos hK, hc, hs]
    simp
  · intro hq
    exact pollFrom_timeout env hq _ _

/-- C5 witness: with the job failing at iteration 2 the loop returns the
failed outcome at elapsed time 10 seconds, far before the 600 second
timeout. -/
theorem poll_loop_outcomes_witness :
    awaitCompletion envPollW = (.failedState, 2) :=
  (poll_loop_outcomes envPollW (by decide) 2 (by decide) (by decide)).2.2.1
    (by decide) (by decide)

/-- An 11-character id-alphabet token at the start of the string is
grabbed whole, whatever follows. -/
theorem grab11_tok (t r : List Char) (h11 : t.length = 11)
    (ht : t.all isTokChar = true) : grab11 (t ++ r) = some t := by
  have htake : (t ++ r).take 11 = t := by
    rw [← h11]
    exact List.take_left t r
  simp [grab11, htake, h11, ht]

/-- A window whose first 11 characters contain one outside the alphabet
does not match. -/
theorem grab11_none_of_mem_bad (cs : List Char) (c : Char)
    (hc : c ∈ cs.take 11) (hbad : isTokChar c = false) : grab11 cs = none := by
  have hall : (cs.take 11).all isTokChar = false := by
    cases hq : (cs.take 11).all isTokChar with
    | false => rfl
    | true =>
      have hcq := List.all_eq_true.mp hq c hc
      rw [hbad] at hcq
      exact absurd hcq (by simp)
  simp [grab11, hall]

theorem grab11_append_none (l r : List Char) (h : hasBad11 l = true) :
    grab11 (l ++ r) = none := by
  obtain ⟨c, hc, hbad⟩ := List.any_eq_true.mp h
  have hmem : c ∈ (l ++ r).take 11 := by
    rw [List.take_append_eq_append_take]
    exact List.mem_append_left _ hc
  exact grab11_none_of_mem_bad _ _ hmem (by simpa using hbad)

/-- A window opening less than 11 characters before a `/` fails on that
slash. -/
theorem grab11_short_slash (l r : List Char) (h : l.length < 11) :
    grab11 (l ++ '/' :: r) = none := by
  have hmem : ('/' : Char) ∈ (l ++ '/' :: r).take 11 := by
    rw [List.take_append_eq_append_take]
    apply List.mem_append_right
    obtain ⟨m, hm⟩ : ∃ m, 11 - l.length = m + 1 := ⟨11 - l.length - 1, by omega⟩
    rw [hm, List.take_succ_cons]
    exact List.mem_cons_self _ _
  exact grab11_none_of_mem_bad _ _ hmem (by decide)

/-- `searchSlashV` steps over a character that opens no candidate. -/
theorem sv_skip (c : Char) (cs : List Char) (h1 : c ≠ 'v') (h2 : c ≠ '/') :
    searchSlashV (c :: cs) = searchSlashV cs :=
  searchSlashV.eq_4 c cs (fun _ hv _ => h1 hv) (fun hs => h2 hs)

theorem sv_slash_none (cs : List Char) (h : grab11 cs = none) :
    searchSlashV ('/' :: cs) = searchSlashV cs := by
  rw [searchSlashV.eq_3, h]

theorem sv_slash_some (cs t : List Char) (h : grab11 cs = some t) :
    searchSlashV ('/' :: cs) = some t := by
  rw [searchSlashV.eq_3, h]

theorem sv_veq_none (cs : List Char) (h : grab11 cs = none) :
    searchSlashV ('v' :: '=' :: cs) = searchSlashV ('=' :: cs) := by
  rw [searchSlashV.eq_2, h]

theorem sv_veq_some (cs t : List Char) (h : grab11 cs = some t) :
    searchSlashV ('v' :: '=' :: cs) = some t := by
  rw [searchSlashV.eq_2, h]

theorem sv_v_other (c2 : Char) (cs : List Char) (h : c2 ≠ '=') :
    searchSlashV ('v' :: c2 :: cs) = searchSlashV (c2 :: cs) :=
  searchSlashV.eq_4 'v' (c2 :: cs)
    (fun rest2 _ hr => h (by injection hr))
    (fun hs => absurd hs (by decide))

/-- Walking a `cleanStrict` prefix produces no match, for any rest. -/
theorem cleanStrict_append (pre rest : List Char) :
    cleanStrict pre = true → searchSlashV (pre ++ rest) = searchSlashV rest := by
  induction pre using cleanStrict.induct with
  | case1 => intro _; rfl
  | case2 cs2 ih =>
    intro h
    rw [cleanStrict.eq_2, Bool.and_eq_true] at h
    rw [List.cons_append, List.cons_append,
      sv_veq_none _ (grab11_append_none cs2 rest h.1), ← List.cons_append]
    exact ih h.2
  | case3 =>
    intro h
    exact absurd h (by decide)
  | case4 cs ih =>
    intro h
    rw [show cleanStrict ('/' :: cs) = (hasBad11 cs && cleanStrict cs) from rfl,
      Bool.and_eq_true] at h
    rw [List.cons_append, sv_slash_none _ (grab11_append_none cs rest h.1)]
    exact ih h.2
  | case5 head cs hne1 hne2 hne3 ih =>
    intro h
    rw [cleanStrict.eq_5 head cs hne1 hne2 hne3] at h
    rw [List.cons_append]
    by_cases hv : head = 'v'
    · subst hv
      cases cs with
      | nil => exact absurd rfl (hne2 rfl)
      | cons c2 cs3 =>
        have hc2 : c2 ≠ '=' := fun he => hne1 cs3 rfl (by rw [he])
        rw [List.cons_append, sv_v_other c2 _ hc2, ← List.cons_append]
        exact ih h
    · by_cases hs : head = '/'
      · exact absurd hs hne3
      · rw [sv_skip head _ hv hs]
        exact ih h

/-- Walking a `cleanB4Slash` prefix produces no match when the rest
starts with a slash. -/
theorem cleanB4Slash_append (pre r : List Char) :
    cleanB4Slash pre = true → searchSlashV (pre ++ '/' :: r) = searchSlashV ('/' :: r) := by
  induction pre using cleanB4Slash.induct with
  | case1 => intro _; rfl
  | case2 cs2 ih =>
    intro h
    rw [show cleanB4Slash ('v' :: '=' :: cs2)
        = ((decide (cs2.length < 11) || hasBad11 cs2) && cleanB4Slash ('=' :: cs2)) from rfl,
      Bool.and_eq_true] at h
    have hg : grab11 (cs2 ++ '/' :: r) = none := by
      rcases Bool.or_eq_true .. ▸ h.1 with h1 | h1
      · exact grab11_short_slash _ _ (of_decide_eq_true h1)
      · exact grab11_append_none _ _ h1
    rw [List.cons_append, List.cons_append, sv_veq_none _ hg, ← List.cons_append]
    exact ih h.2
  | case3 cs ih =>
    intro h
    rw [show cleanB4Slash ('/' :: cs)
        = ((decide (cs.length < 11) || hasBad11 cs) && cleanB4Slash cs) from rfl,
      Bool.and_eq_true] at h
    have hg : grab11 (cs ++ '/' :: r) = none := by
      rcases Bool.or_eq_true .. ▸ h.1 with h1 | h1
      · exact grab11_short_slash _ _ (of_decide_eq_true h1)
      · exact grab11_append_none _ _ h1
    rw [List.cons_append, sv_slash_none _ hg]
    exact ih h.2
  | case4 head cs hne1 hne3 ih =>
    intro h
    rw [cleanB4Slash.eq_4 head cs hne1 hne3] at h
    rw [List.cons_append]
    by_cases hv : head = 'v'
    · subst hv
      cases cs with
      | nil =>
        rw [List.nil_append]
        exact sv_v_other '/' r (by decide)
      | cons c2 cs3 =>
        have hc2 : c2 ≠ '=' := fun he => hne1 cs3 rfl (by rw [he])
        rw [List.cons_append, sv_v_other c2 _ hc2, ← List.cons_append]
        exact ih h
    · by_cases hs : head = '/'
      · exact absurd hs hne3
      · rw [sv_skip head _ hv hs]
        exact ih h

theorem yt_id_of_sv (url t : List Char) (h : searchSlashV url = some t) :
    yt_id url = some t := by
  unfold yt_id
  rw [h]

/-- No 11-token run anywhere means no window matches. -/
theorem grab11_none_of_hasTok11 (cs : List Char) (h : hasTok11 cs = false) :
    grab11 cs = none := by
  cases cs with
  | nil => rfl
  | cons c cs =>
    rw [hasTok11, Bool.or_eq_false_iff] at h
    cases hg : grab11 (c :: cs) with
    | none => rfl
    | some t =>
      rw [hg] at h
      simp at h

theorem hasTok11_tail (c : Char) (cs : List Char)
    (h : hasTok11 (c :: cs) = false) : hasTok11 cs = false := by
  rw [hasTok11, Bool.or_eq_false_iff] at h
  exact h.2

theorem searchSlashV_none_of (cs : List Char) :
    hasTok11 cs = false → searchSlashV cs = none := by
  induction cs using searchSlashV.induct with
  | case1 => intro _; rfl
  | case2 rest2 t hg =>
    intro h
    have hn := grab11_none_of_hasTok11 rest2 (hasTok11_tail _ _ (hasTok11_tail _ _ h))
    rw [hg] at hn
    exact Option.noConfusion hn
  | case3 rest2 hg ih =>
    intro h
    rw [sv_veq_none _ hg]
    exact ih (hasTok11_tail _ _ h)
  | case4 rest t hg =>
    intro h
    have hn := grab11_none_of_hasTok11 rest (hasTok11_tail _ _ h)
    rw [hg] at hn
    exact Option.noConfusion hn
  | case5 rest hg ih =>
    intro h
    rw [sv_slash_none _ hg]
    exact ih (hasTok11_tail _ _ h)
  | case6 head rest hne1 hne2 ih =>
    intro h
    rw [searchSlashV.eq_4 head rest hne1 hne2]
    exact ih (hasTok11_tail _ _ h)

theorem hasTok11_litMatch (lit : List Char) : ∀ (cs r : List Char),
    litMatch lit cs = some r → hasTok11 cs = false → hasTok11 r = false := by
  induction lit with
  | nil =>
    intro cs r h hcs
    rw [litMatch, Option.some.injEq] at h
    rw [← h]
    exact hcs
  | cons p ps ih =>
    intro cs r h hcs
    cases cs with
    | nil => exact absurd h (by rw [litMatch]; simp)
    | cons c cs2 =>
      rw [litMatch] at h
      split at h
      · exact ih cs2 r h (hasTok11_tail _ _ hcs)
      · exact absurd h (by simp)

theorem matchLitAt_none (lit cs : List Char) (h : hasTok11 cs = false) :
    matchLitAt lit cs = none := by
  unfold matchLitAt
  cases hl : litMatch lit cs with
  | none => rfl
  | some r => exact grab11_none_of_hasTok11 r (hasTok11_litMatch lit cs r hl h)

theorem searchLitTok_none_of (lit : List Char) :
    ∀ cs, hasTok11 cs = false → searchLitTok lit cs = none := by
  intro cs
  induction cs with
  | nil =>
    intro h
    rw [searchLitTok]
    exact matchLitAt_none lit [] h
  | cons c cs ih =>
    intro h
    rw [searchLitTok, matchLitAt_none lit _ h]
    exact ih (hasTok11_tail _ _ h)

theorem yt_id_none_of (cs : List Char) (h : hasTok11 cs = false) :
    yt_id cs = none := by
  have h1 := searchSlashV_none_of cs h
  have h2 : searchLitTok (['y', 'o', 'u', 't', 'u', '.', 'b', 'e', '/']) cs = none :=
    searchLitTok_none_of _ cs h
  have h3 : searchLitTok (['e', 'm', 'b', 'e', 'd', '/']) cs = none :=
    searchLitTok_none_of _ cs h
  have h4 : searchLitTok (['s', 'h', 'o', 'r', 't', 's', '/']) cs = none :=
    searchLitTok_none_of _ cs h
  simp [yt_id, h1, h2, h3, h4]

/-- C8: all four documented reference formats around the same 11-character
token (with an arbitrary trailing suffix, so with or without query
parameters) resolve to that token, and a string containing no
11-character run over the id alphabet resolves to `None`
(`InvalidReference`). -/
theorem resolver_formats_and_failure (tok suf : List Char)
    (h11 : tok.length = 11) (ht : tok.all isTokChar = true) :
    yt_id ("https://www.youtube.com/watch?v=".toList ++ (tok ++ suf)) = some tok ∧
    yt_id ("https://youtu.be/".toList ++ (tok ++ suf)) = some tok ∧
    yt_id ("https://www.youtube.com/embed/".toList ++ (tok ++ suf)) = some tok ∧
    yt_id ("https://www.youtube.com/shorts/".toList ++ (tok ++ suf)) = some tok ∧
    ∀ cs : List Char, hasTok11 cs = false → yt_id cs = none := by
  refine ⟨?_, ?_, ?_, ?_, fun cs h => yt_id_none_of cs h⟩
  · apply yt_id_of_sv
    have hdec : "https://www.youtube.com/watch?v=".toList ++ (tok ++ suf)
        = "https://www.youtube.com/watch?".toList ++ ('v' :: '=' :: (tok ++ suf)) := by
      have hsp : "https://www.youtube.com/watch?v=".toList
          = "https://www.youtube.com/watch?".toList ++ ['v', '='] := by rfl
      rw [hsp, List.append_assoc]
      rfl
    rw [hdec, cleanStrict_append _ _ (by decide)]
    exact sv_veq_some _ _ (grab11_tok tok suf h11 ht)
  · apply yt_id_of_sv
    have hdec : "https://youtu.be/".toList ++ (tok ++ suf)
        = "https://youtu.be".toList ++ ('/' :: (tok ++ suf)) := by
      have hsp : "https://youtu.be/".toList = "https://youtu.be".toList ++ ['/'] := by rfl
      rw [hsp, List.append_assoc]
      rfl
    rw [hdec, cleanB4Slash_append _ _ (by decide)]
    exact sv_slash_some _ _ (grab11_tok tok suf h11 ht)
  · apply yt_id_of_sv
    have hdec : "https://www.youtube.com/embed/".toList ++ (tok ++ suf)
        = "https://www.youtube.com/embed".toList ++ ('/' :: (tok ++ suf)) := by
      have hsp : "https://www.youtube.com/embed/".toList
          = "https://www.youtube.com/embed".toList ++ ['/'] := by rfl
      rw [hsp, List.append_assoc]
      rfl
    rw [hdec, cleanB4Slash_append _ _ (by decide)]
    exact sv_slash_some _ _ (grab11_tok tok suf h11 ht)
  · apply yt_id_of_sv
    have hdec : "https://www.youtube.com/shorts/".toList ++ (tok ++ suf)
        = "https://www.youtube.com/shorts".toList ++ ('/' :: (tok ++ suf)) := by
      have hsp : "https://www.youtube.com/shorts/".toList
          = "https://www.youtube.com/shorts".toList ++ ['/'] := by rfl
      rw [hsp, List.append_assoc]
      rfl
    rw [hdec, cleanB4Slash_append _ _ (by decide)]
    exact sv_slash_some _ _ (grab11_tok tok suf h11 ht)

/-- Appending the final question mark guarantees a trailing question
mark. -/
theorem ensureQmark (l : List Char) :
    (if l.getLast? == some '?' then l else l ++ ['?']).getLast? = some '?' := by
  by_cases h : l.getLast? = some '?'
  · simp [h]
  · have hb : (l.getLast? == some '?') = false := by
      rw [beq_eq_false_iff_ne]
      exact h
    rw [hb]
    simp only [Bool.false_eq_true, if_false]
    exact List.getLast?_concat l

/-- Every question built by the generator ends in a question mark. -/
theorem mkQuestion_endsQ (orig : List Char) :
    (mkQuestion orig).getLast? = some '?' := by
  simp only [mkQuestion]
  exact ensureQmark _

theorem ne_nil_of_endsQ (l : List Char) (h : l.getLast? = some '?') : l ≠ [] := by
  intro he
  subst he
  simp at h

/-- Bounds for membership in a Python range with positive step. -/
theorem pyRange_mem_bounds (start stop step x : Nat) (hstep : 0 < step)
    (hx : x ∈ pyRange start stop step) : start ≤ x ∧ x < stop := by
  unfold pyRange at hx
  rw [List.mem_range'] at hx
  obtain ⟨j, hj, hxe⟩ := hx
  subst hxe
  refine ⟨Nat.le_add_right _ _, ?_⟩
  have h1 : (j + 1) * step ≤ (stop - start + step - 1) / step * step :=
    Nat.mul_le_mul_right step hj
  have h2 : (stop - start + step - 1) / step * step ≤ stop - start + step - 1 :=
    Nat.div_mul_le_self _ _
  have h4 : step * j + step ≤ stop - start + step - 1 := by
    calc step * j + step = (j + 1) * step := by ring
    _ ≤ (stop - start + step - 1) / step * step := h1
    _ ≤ stop - start + step - 1 := h2
  set A := step * j with hA
  omega

theorem pyRange_length (start stop step : Nat) :
    (pyRange start stop step).length = (stop - start + step - 1) / step := by
  unfold pyRange
  exact List.length_range' _ _ _

/-- The stride is positive and, when at least two sentences qualify, it
stays below the last index. -/
theorem strideStep_pos (cnt effN : Nat) : 0 < strideStep cnt effN :=
  lt_of_lt_of_le Nat.one_pos (le_max_left _ _)

theorem strideStep_le (cnt n : Nat) (h2 : 2 ≤ cnt) :
    strideStep cnt (effectiveN cnt n) ≤ cnt - 1 := by
  unfold strideStep effectiveN
  apply max_le
  · omega
  · have ha : cnt / (max 3 (min n (cnt / 2)) + 1) ≤ cnt / 2 :=
      Nat.div_le_div_left (by omega) (by omega)
    have hb : cnt / 2 < cnt := Nat.div_lt_self (by omega) (by omega)
    omega

/-- Every picked index is at least 1 and below the sentence count. -/
theorem keyIndices_mem_bounds (cnt n i : Nat) (hi : i ∈ keyIndices cnt n) :
    1 ≤ i ∧ i < cnt := by
  unfold keyIndices at hi
  have hmem := List.mem_of_mem_take hi
  have hb := pyRange_mem_bounds _ _ _ i (strideStep_pos cnt (effectiveN cnt n)) hmem
  exact ⟨le_trans (le_max_left 1 _) hb.1, hb.2⟩

/-- With at least two qualifying sentences the pick list is nonempty, and
it is never longer than `max 3 n`. -/
theorem keyIndices_length_bounds (cnt n : Nat) (h2 : 2 ≤ cnt) :
    1 ≤ (keyIndices cnt n).length ∧ (keyIndices cnt n).length ≤ max 3 n := by
  have hstep := strideStep_pos cnt (effectiveN cnt n)
  have hle := strideStep_le cnt n h2
  have hlen : (pyRange (strideStep cnt (effectiveN cnt n)) cnt
      (strideStep cnt (effectiveN cnt n))).length
      = (cnt - strideStep cnt (effectiveN cnt n) + strideStep cnt (effectiveN cnt n) - 1)
        / strideStep cnt (effectiveN cnt n) := pyRange_length _ _ _
  have heq : cnt - strideStep cnt (effectiveN cnt n) + strideStep cnt (effectiveN cnt n) - 1
      = cnt - 1 := by omega
  rw [heq] at hlen
  have hone : 1 ≤ (cnt - 1) / strideStep cnt (effectiveN cnt n) :=
    (Nat.one_le_div_iff hstep).mpr hle
  constructor
  · unfold keyIndices
    rw [List.length_take, hlen]
    have h3 : 3 ≤ effectiveN cnt n := le_max_left _ _
    omega
  · unfold keyIndices
    rw [List.length_take]
    have hEn : effectiveN cnt n ≤ max 3 n := by
      unfold effectiveN
      apply max_le (le_max_left _ _)
      exact le_trans (min_le_left _ _) (le_max_right _ _)
    omega

/-- The context answer joins at least two sentences, so it is nonempty. -/
theorem mkAnswer_ne_nil (sents : List (List Char)) (i : Nat)
    (h1 : 1 ≤ i) (h2 : i < sents.length) : mkAnswer sents i ≠ [] := by
  unfold mkAnswer
  have hlen : ((sents.drop (i - 1)).take (min sents.length (i + 2) - (i - 1))).length
      = min (min sents.length (i + 2) - (i - 1)) (sents.length - (i - 1)) := by
    rw [List.length_take, List.length_drop]
  have hsl : 2 ≤ ((sents.drop (i - 1)).take (min sents.length (i + 2) - (i - 1))).length := by
    rw [hlen]
    omega
  obtain ⟨a, tl, he⟩ : ∃ a tl,
      (sents.drop (i - 1)).take (min sents.length (i + 2) - (i - 1)) = a :: tl := by
    cases hc : (sents.drop (i - 1)).take (min sents.length (i + 2) - (i - 1)) with
    | nil => rw [hc] at hsl; simp at hsl
    | cons a tl => exact ⟨a, tl, rfl⟩
  obtain ⟨b, rest, he2⟩ : ∃ b rest, tl = b :: rest := by
    cases hc : tl with
    | nil => rw [hc] at he; rw [he] at hsl; simp at hsl
    | cons b rest => exact ⟨b, rest, rfl⟩
  rw [he, he2]
  simp [pyJoin]

/-- C3 (counterexample): a text with exactly two qualifying sentences (40
and 41 characters) and requested count 5 produces a single item, below
the claimed lower bound of 3. -/
theorem local_generator_bounds_counterexample :
    2 ≤ (qualifyingSentences
      ("First qualifying sentence right here ok. Second qualifying sentence also here now!".toList)).length ∧
    (∀ s ∈ qualifyingSentences
      ("First qualifying sentence right here ok. Second qualifying sentence also here now!".toList),
        20 ≤ s.length) ∧
    generateBasic
        ("First qualifying sentence right here ok. Second qualifying sentence also here now!".toList) 5
      = renderItems (genItems (qualifyingSentences
          ("First qualifying sentence right here ok. Second qualifying sentence also here now!".toList)) 5) ∧
    (genItems (qualifyingSentences
      ("First qualifying sentence right here ok. Second qualifying sentence also here now!".toList)) 5).length
      = 1 := by
  refine ⟨by decide, by decide, ?_, by decide⟩
  set_option maxRecDepth 4096 in decide

/-- C3 (amended): for every text with at least two qualifying sentences
and every requested count `n`, the generator returns between 1 and
`max 3 n` items (not between 3 and `n`), each with a non-empty question
ending in a question mark and a non-empty answer; the returned string is
the rendering of those items. -/
theorem local_generator_item_bounds (text : List Char) (n : Nat)
    (h2 : 2 ≤ (qualifyingSentences text).length) :
    generateBasic text n = renderItems (genItems (qualifyingSentences text) n) ∧
    1 ≤ (genItems (qualifyingSentences text) n).length ∧
    (genItems (qualifyingSentences text) n).length ≤ max 3 n ∧
    ∀ it ∈ genItems (qualifyingSentences text) n,
      it.question ≠ [] ∧ it.question.getLast? = some '?' ∧ it.answer ≠ [] := by
  have hne : qualifyingSentences text ≠ [] := by
    intro he
    rw [he] at h2
    simp at h2
  have hlen : (genItems (qualifyingSentences text) n).length
      = (keyIndices (qualifyingSentences text).length n).length := by
    unfold genItems
    rw [List.length_map]
  refine ⟨?_, ?_, ?_, ?_⟩
  · unfold generateBasic
    rw [if_neg (by simp [hne])]
  · rw [hlen]
    exact (keyIndices_length_bounds _ n h2).1
  · rw [hlen]
    exact (keyIndices_length_bounds _ n h2).2
  · intro it hit
    unfold genItems at hit
    rw [List.mem_map] at hit
    obtain ⟨i, hi, hie⟩ := hit
    obtain ⟨h1i, h2i⟩ := keyIndices_mem_bounds _ n i hi
    subst hie
    refine ⟨?_, ?_, ?_⟩
    · exact ne_nil_of_endsQ _ (mkQuestion_endsQ _)
    · exact mkQuestion_endsQ _
    · exact mkAnswer_ne_nil _ i h1i h2i

/-- C3 witness: the amended bounds evaluated on a five-sentence text with
`n = 3`. -/
theorem local_generator_item_bounds_witness :
    generateBasic textFiveW 3 = renderItems (genItems (qualifyingSentences textFiveW) 3) ∧
    1 ≤ (genItems (qualifyingSentences textFiveW) 3).length ∧
    (genItems (qualifyingSentences textFiveW) 3).length ≤ max 3 3 ∧
    ∀ it ∈ genItems (qualifyingSentences textFiveW) 3,
      it.question ≠ [] ∧ it.question.getLast? = some '?' ∧ it.answer ≠ [] :=
  local_generator_item_bounds textFiveW 3 (by decide)

/-- Closed form of `range'` as a mapped `range`. -/
theorem range'_eq_map_mul (s st : Nat) :
    ∀ L, List.range' s L st = (List.range L).map (fun j => s + st * j) := by
  intro L
  induction L generalizing s with
  | zero => simp
  | succ L ih =>
    rw [List.range'_succ, ih (s + st), List.range_succ_eq_map, List.map_cons, List.map_map]
    refine congrArg₂ List.cons (by simp) ?_
    apply List.map_congr_left
    intro j _
    simp only [Function.comp_apply, Nat.succ_eq_add_one]
    ring

/-- C4 helper: the code picks are the multiples of the stride that stay
below the sentence count, capped at the effective count. -/
theorem keyIndices_closed_form (cnt n : Nat) :
    keyIndices cnt n =
      (List.range (min (effectiveN cnt n)
          ((cnt - 1) / strideStep cnt (effectiveN cnt n)))).map
        (fun j => strideStep cnt (effectiveN cnt n) * (j + 1)) := by
  have hst : 0 < strideStep cnt (effectiveN cnt n) := strideStep_pos _ _
  have hL : (cnt - strideStep cnt (effectiveN cnt n) + strideStep cnt (effectiveN cnt n) - 1)
      / strideStep cnt (effectiveN cnt n)
      = (cnt - 1) / strideStep cnt (effectiveN cnt n) := by
    rcases Nat.eq_zero_or_pos cnt with h0 | hpos
    · subst h0
      rw [show (0 : Nat) - strideStep 0 (effectiveN 0 n) + strideStep 0 (effectiveN 0 n) - 1
          = strideStep 0 (effectiveN 0 n) - 1 from by omega]
      rw [Nat.div_eq_of_lt (by omega)]
      rw [show (0 : Nat) - 1 = 0 from rfl, Nat.zero_div]
    · have hle : strideStep cnt (effectiveN cnt n) ≤ cnt := by
        unfold strideStep
        exact max_le hpos (Nat.div_le_self _ _)
      congr 1
      omega
  unfold keyIndices pyRange
  rw [hL, range'_eq_map_mul, ← List.map_take, List.take_range]
  apply List.map_congr_left
  intro j _
  ring

/-- A positive-step `range'` is strictly increasing. -/
theorem range'_pairwise_lt (st : Nat) (hst : 0 < st) :
    ∀ (L s : Nat), List.Pairwise (· < ·) (List.range' s L st) := by
  intro L
  induction L with
  | zero => intro s; simp
  | succ L ih =>
    intro s
    rw [List.range'_succ]
    refine List.Pairwise.cons ?_ (ih (s + st))
    intro x hx
    rw [List.mem_range'] at hx
    obtain ⟨j, _, he⟩ := hx
    subst he
    exact lt_of_lt_of_le (Nat.lt_add_of_pos_right hst) (Nat.le_add_right _ _)

theorem keyIndices_sorted (cnt n : Nat) :
    List.Pairwise (· < ·) (keyIndices cnt n) := by
  unfold keyIndices pyRange
  exact List.Pairwise.sublist (List.take_sublist _ _)
    (range'_pairwise_lt _ (strideStep_pos _ _) _ _)

/-- The code answer window equals the specified before/picked/after
window clamped at the boundaries. -/
theorem mkAnswer_eq_spec (sents : List (List Char)) (i : Nat)
    (h1 : 1 ≤ i) (h2 : i < sents.length) : mkAnswer sents i = specAnswer sents i := by
  have hgd : ∀ j, (hj : j < sents.length) → sents.getD j [] = sents[j] := by
    intro j hj
    simp [List.getElem?_eq_getElem hj]
  obtain ⟨a, rfl⟩ : ∃ a, i = a + 1 := ⟨i - 1, by omega⟩
  unfold mkAnswer specAnswer
  simp only [Nat.add_sub_cancel]
  by_cases h3 : a + 1 + 1 < sents.length
  · rw [show min sents.length (a + 1 + 2) - a = 3 from by omega]
    rw [List.drop_eq_getElem_cons (show a < sents.length from by omega),
      List.drop_eq_getElem_cons (show a + 1 < sents.length from by omega),
      List.drop_eq_getElem_cons (show a + 1 + 1 < sents.length from h3)]
    rw [List.take_succ_cons, List.take_succ_cons, List.take_succ_cons, List.take_zero]
    simp only [List.filter_cons, List.filter_nil, decide_eq_true_eq]
    rw [if_pos (show a < sents.length from by omega), if_pos h2, if_pos h3]
    simp only [List.map_cons, List.map_nil]
    rw [hgd a (by omega), hgd (a + 1) (by omega), hgd (a + 1 + 1) h3]
  · rw [show min sents.length (a + 1 + 2) - a = 2 from by omega]
    rw [List.drop_eq_getElem_cons (show a < sents.length from by omega),
      List.drop_eq_getElem_cons (show a + 1 < sents.length from h2)]
    rw [List.take_succ_cons, List.take_succ_cons, List.take_zero]
    simp only [List.filter_cons, List.filter_nil, decide_eq_true_eq]
    rw [if_pos (show a < sents.length from by omega), if_pos h2, if_neg h3]
    simp only [List.map_cons, List.map_nil]
    rw [hgd a (by omega), hgd (a + 1) h2]

theorem genItems_eq_spec (sents : List (List Char)) (n : Nat) :
    genItems sents n = (keyIndices sents.length n).map
      (fun i => ⟨mkQuestion (sents.getD i []), specAnswer sents i⟩) := by
  unfold genItems
  apply List.map_congr_left
  intro i hi
  obtain ⟨hb1, hb2⟩ := keyIndices_mem_bounds _ n i hi
  rw [mkAnswer_eq_spec sents i hb1 hb2]

/-- C4: for every sentence list and requested count, the picked indices
are exactly the stride multiples `step, 2*step, 3*step, ...` that stay
below the sentence count, capped at `effectiveN` picks (with
`effectiveN = max 3 (min n (cnt / 2))` and
`step = max 1 (cnt / (effectiveN + 1))` as in the code); they are
strictly increasing (chronological emission order), and each generated
item pairs the transformed picked sentence with the specification's
answer window: the sentence before, the picked sentence, and the sentence
after, clamped at the list boundaries. -/
theorem picks_and_answers (sents : List (List Char)) (n : Nat) :
    keyIndices sents.length n =
      (List.range (min (effectiveN sents.length n)
          ((sents.length - 1) / strideStep sents.length (effectiveN sents.length n)))).map
        (fun j => strideStep sents.length (effectiveN sents.length n) * (j + 1)) ∧
    List.Pairwise (· < ·) (keyIndices sents.length n) ∧
    (∀ i ∈ keyIndices sents.length n, i < sents.length) ∧
    (keyIndices sents.length n).length ≤ effectiveN sents.length n ∧
    genItems sents n = (keyIndices sents.length n).map
      (fun i => ⟨mkQuestion (sents.getD i []), specAnswer sents i⟩) := by
  refine ⟨keyIndices_closed_form _ _, keyIndices_sorted _ _, ?_, ?_, genItems_eq_spec _ _⟩
  · intro i hi
    exact (keyIndices_mem_bounds _ _ _ hi).2
  · unfold keyIndices
    rw [List.length_take]
    exact min_le_left _ _

/-- An adjacent pair of the list appears in its self-zip. -/
theorem mem_zip_adjacent {α : Type} (x y : α) : ∀ (pre post : List α),
    (x, y) ∈ (pre ++ x :: y :: post).zip (pre ++ x :: y :: post).tail := by
  intro pre
  induction pre with
  | nil =>
    intro post
    rw [List.nil_append, List.tail_cons, List.zip_cons_cons]
    exact List.mem_cons_self _ _
  | cons q pre ih =>
    intro post
    have hih := ih post
    cases hA : pre ++ x :: y :: post with
    | nil => exact absurd hA (by simp)
    | cons a0 A2 =>
      rw [List.cons_append, hA, List.tail_cons, List.zip_cons_cons]
      rw [hA] at hih
      exact List.mem_cons_of_mem _ hih

/-- If the walked-over part (ending in `p`) forms no (punctuation,
whitespace) pair with the current character, the splitter condition at
that character is false. -/
theorem noSplit_cond (p : Char) (cur2 : List Char) (c : Char) (tl : List Char)
    (hns : noSplitIn ((p :: cur2).reverse ++ c :: tl) = true) :
    (pyIsSpace c && isTermPunct p) = false := by
  have h2 := hns
  unfold noSplitIn at h2
  rw [List.reverse_cons, List.append_assoc, List.singleton_append] at h2
  by_cases hsp : pyIsSpace c = true
  · by_cases hpt : isTermPunct p = true
    · have hpair : (!(isTermPunct p && pyIsSpace c)) = true :=
        List.all_eq_true.mp h2 (p, c) (mem_zip_adjacent p c cur2.reverse tl)
      rw [hpt, hsp] at hpair
      simp at hpair
    · rw [Bool.not_eq_true] at hpt
      rw [hpt]
      simp
  · rw [Bool.not_eq_true] at hsp
    rw [hsp]
    simp

/-- A string without a split point is returned as a single segment. -/
theorem splitSentGo_no_split : ∀ (rest cur : List Char),
    noSplitIn (cur.reverse ++ rest) = true →
    splitSentGo cur false rest = [cur.reverse ++ rest] := by
  intro rest
  induction rest with
  | nil =>
    intro cur _
    rw [splitSentGo.eq_1, List.append_nil]
  | cons c cs ih =>
    intro cur h
    cases cur with
    | nil =>
      rw [splitSentGo.eq_3]
      simp only [Bool.false_and, Bool.and_false, Bool.false_eq_true, if_false]
      have hns2 : noSplitIn (([c]).reverse ++ cs) = true := by simpa using h
      rw [ih [c] hns2]
      simp
    | cons p cur2 =>
      rw [splitSentGo.eq_2]
      simp only [Bool.false_and, Bool.false_eq_true, if_false]
      rw [noSplit_cond p cur2 c cs h]
      simp only [Bool.false_eq_true, if_false]
      have hns2 : noSplitIn ((c :: p :: cur2).reverse ++ cs) = true := by
        rw [List.reverse_cons, List.append_assoc, List.singleton_append]
        exact h
      rw [ih (c :: p :: cur2) hns2, List.reverse_cons, List.append_assoc,
        List.singleton_append]

/-- In skipping mode the splitter consumes the rest of the whitespace run
and then proceeds exactly like a fresh scan of what follows. -/
theorem splitSentGo_skip_ws : ∀ (w2 b : List Char), w2.all pyIsSpace = true →
    (b = [] ∨ ∃ c bs, b = c :: bs ∧ pyIsSpace c = false) →
    splitSentGo [] true (w2 ++ b) = pySplitSentences b := by
  intro w2
  induction w2 with
  | nil =>
    intro b _ hb
    rw [List.nil_append]
    rcases hb with hb | ⟨c, bs, hbe, hc⟩
    · subst hb
      rfl
    · subst hbe
      unfold pySplitSentences
      rw [splitSentGo.eq_3, splitSentGo.eq_3]
      simp [hc]
  | cons cw w2 ih =>
    intro b hws hb
    rw [List.all_cons, Bool.and_eq_true] at hws
    rw [List.cons_append, splitSentGo.eq_3]
    have hcc : (true && pyIsSpace cw) = true := by rw [hws.1]; decide
    rw [if_pos hcc]
    exact ih b hws.2 hb

/-- The splitter cuts exactly at a whitespace run preceded by terminal
punctuation: walking a matchless `rest` (with accumulated `cur`), then a
nonempty whitespace run `w`, then `b` (not starting with whitespace)
emits the walked part as one segment and continues on `b` afresh. -/
theorem splitSentGo_boundary (w b : List Char) (hw : w ≠ [])
    (hws : w.all pyIsSpace = true)
    (hb : b = [] ∨ ∃ c bs, b = c :: bs ∧ pyIsSpace c = false) :
    ∀ (rest cur : List Char),
      noSplitIn (cur.reverse ++ rest) = true →
      (∃ p, (cur.reverse ++ rest).getLast? = some p ∧ isTermPunct p = true) →
      splitSentGo cur false (rest ++ (w ++ b)) = (cur.reverse ++ rest) :: pySplitSentences b := by
  intro rest
  induction rest with
  | nil =>
    intro cur _ hlast
    obtain ⟨p, hp, hpunct⟩ := hlast
    rw [List.append_nil] at hp
    rw [List.getLast?_reverse] at hp
    obtain ⟨cur2, hcur⟩ : ∃ cur2, cur = p :: cur2 := by
      cases cur with
      | nil => simp at hp
      | cons q cur2 =>
        simp only [List.head?_cons, Option.some.injEq] at hp
        exact ⟨cur2, by rw [hp]⟩
    subst hcur
    obtain ⟨cw, w2, hwe⟩ : ∃ cw w2, w = cw :: w2 := by
      cases w with
      | nil => exact absurd rfl hw
      | cons cw w2 => exact ⟨cw, w2, rfl⟩
    subst hwe
    rw [List.all_cons, Bool.and_eq_true] at hws
    rw [List.nil_append, List.cons_append, splitSentGo.eq_2]
    simp only [Bool.false_and, Bool.false_eq_true, if_false]
    have hcc : (pyIsSpace cw && isTermPunct p) = true := by
      rw [hws.1, hpunct]; decide
    rw [if_pos hcc]
    rw [splitSentGo_skip_ws w2 b hws.2 hb, List.append_nil]
  | cons c cs ih =>
    intro cur hns hlast
    cases cur with
    | nil =>
      rw [List.cons_append, splitSentGo.eq_3]
      simp only [Bool.false_and, Bool.and_false, Bool.false_eq_true, if_false]
      have hns2 : noSplitIn (([c]).reverse ++ cs) = true := by simpa using hns
      have hlast2 : ∃ p, (([c]).reverse ++ cs).getLast? = some p ∧ isTermPunct p = true := by
        simpa using hlast
      rw [ih [c] hns2 hlast2]
      simp
    | cons p cur2 =>
      rw [List.cons_append, splitSentGo.eq_2]
      simp only [Bool.false_and, Bool.false_eq_true, if_false]
      rw [noSplit_cond p cur2 c cs hns]
      simp only [Bool.false_eq_true, if_false]
      have hns2 : noSplitIn ((c :: p :: cur2).reverse ++ cs) = true := by
        rw [List.reverse_cons, List.append_assoc, List.singleton_append]
        exact hns
      have hlast2 : ∃ q, ((c :: p :: cur2).reverse ++ cs).getLast? = some q
          ∧ isTermPunct q = true := by
        rw [List.reverse_cons, List.append_assoc, List.singleton_append]
        exact hlast
      rw [ih (c :: p :: cur2) hns2 hlast2, List.reverse_cons, List.append_assoc,
        List.singleton_append]

/-- C9 (counterexample): a segment of exactly 20 characters is discarded
by the code (`len(s.strip()) > 20` keeps only length at least 21), so a
text whose single sentence has exactly 20 characters yields zero
qualifying sentences and the sentinel — the claim says every segment of
20 or more characters is kept. -/
theorem segment_filter_counterexample :
    ("abcdefghijklmnopqrs.".toList).length = 20 ∧
    pySplitSentences ("abcdefghijklmnopqrs.".toList) = ["abcdefghijklmnopqrs.".toList] ∧
    pyStrip ("abcdefghijklmnopqrs.".toList) = "abcdefghijklmnopqrs.".toList ∧
    qualifyingSentences ("abcdefghijklmnopqrs.".toList) = [] ∧
    generateBasic ("abcdefghijklmnopqrs.".toList) 5 = SENTINEL := by
  refine ⟨by decide, by decide, by decide, by decide, by decide⟩

/-- C9 (amended): the generator splits its 20000-character prefix exactly
at maximal whitespace runs preceded by terminal punctuation — a part with
no such point stays one segment, and a punctuation-plus-whitespace
boundary cuts the text there — and it keeps exactly the stripped segments
of length at least 21, discarding those of stripped length at most 20. -/
theorem segmentation_and_filter :
    (∀ (text s : List Char),
      s ∈ qualifyingSentences text ↔
        (s ∈ (pySplitSentences (text.take 20000)).map pyStrip ∧ 21 ≤ s.length)) ∧
    (∀ a : List Char, noSplitIn a = true → pySplitSentences a = [a]) ∧
    (∀ a w b : List Char, noSplitIn a = true →
      (∃ p, a.getLast? = some p ∧ isTermPunct p = true) →
      w ≠ [] → w.all pyIsSpace = true →
      (b = [] ∨ ∃ c bs, b = c :: bs ∧ pyIsSpace c = false) →
      pySplitSentences (a ++ w ++ b) = a :: pySplitSentences b) := by
  refine ⟨?_, ?_, ?_⟩
  · intro text s
    unfold qualifyingSentences
    rw [List.mem_filter]
    constructor
    · rintro ⟨hm, hl⟩
      refine ⟨hm, ?_⟩
      simp only [decide_eq_true_eq] at hl
      omega
    · rintro ⟨hm, hl⟩
      refine ⟨hm, ?_⟩
      simp only [decide_eq_true_eq]
      omega
  · intro a hns
    unfold pySplitSentences
    have h := splitSentGo_no_split a [] (by simpa using hns)
    simpa using h
  · intro a w b hns hlast hw hws hb
    unfold pySplitSentences
    rw [List.append_assoc]
    have h := splitSentGo_boundary w b hw hws hb a [] (by simpa using hns)
      (by simpa using hlast)
    simpa using h

/-- C9 witness: the segmentation applied at concrete fragments — a
fragment without split points stays whole, and a punctuation-whitespace
boundary splits the concatenation. -/
theorem segmentation_and_filter_witness :
    pySplitSentences ("No split point here".toList) = ["No split point here".toList] ∧
    pySplitSentences ("First ends here.".toList ++ "  ".toList ++ "Second begins now".toList)
      = ["First ends here.".toList, "Second begins now".toList] := by
  constructor
  · exact segmentation_and_filter.2.1 _ (by decide)
  · rw [segmentation_and_filter.2.2 ("First ends here.".toList) ("  ".toList)
      ("Second begins now".toList) (by decide) ⟨'.', by decide, by decide⟩
      (by decide) (by decide)
      (Or.inr ⟨'S', "econd begins now".toList, by decide, by decide⟩)]
    rw [segmentation_and_filter.2.1 _ (by decide)]

/-- C8 witness: the four formats around a concrete token with a concrete
query suffix, plus a concrete tokenless failing string. -/
theorem resolver_formats_and_failure_witness :
    yt_id ("https://www.youtube.com/watch?v=".toList
      ++ ("dQw4w9WgXcQ".toList ++ "?t=30s".toList)) = some ("dQw4w9WgXcQ".toList) ∧
    yt_id ("https://youtu.be/".toList
      ++ ("dQw4w9WgXcQ".toList ++ "?t=30s".toList)) = some ("dQw4w9WgXcQ".toList) ∧
    yt_id ("https://www.youtube.com/embed/".toList
      ++ ("dQw4w9WgXcQ".toList ++ "?t=30s".toList)) = some ("dQw4w9WgXcQ".toList) ∧
    yt_id ("https://www.youtube.com/shorts/".toList
      ++ ("dQw4w9WgXcQ".toList ++ "?t=30s".toList)) = some ("dQw4w9WgXcQ".toList) ∧
    yt_id ("no identifier here!".toList) = none := by
  have T := resolver_formats_and_failure ("dQw4w9WgXcQ".toList) ("?t=30s".toList)
    (by decide) (by decide)
  exact ⟨T.1, T.2.1, T.2.2.1, T.2.2.2.1, T.2.2.2.2 _ (by decide)⟩

/-- C7 witness: cancellation arrives at poll iteration 1 while the job is
still processing. -/
theorem cancellation_during_poll_witness :
    (pipeline ⟨false, false, true, 5⟩ envCancelW).outcome = .cancelled ∧
    (pipeline ⟨false, false, true, 5⟩ envCancelW).savedQuiz = none ∧
    (envCancelW.transcriptText.isSome = true →
      ArtifactKind.transcript ∈ (pipeline ⟨false, false, true, 5⟩ envCancelW).disk) ∧
    ArtifactKind.video ∈ (pipeline ⟨false, false, true, 5⟩ envCancelW).disk ∧
    ArtifactKind.quizFile ∉ (pipeline ⟨false, false, true, 5⟩ envCancelW).disk :=
  cancellation_during_poll _ _ 1 rfl rfl rfl rfl rfl rfl (by decide)

end QuizMaker
